import Mathlib

/-!
Verification of the NVDINOv2 embedding client
(`nim_workflows/nvdinov2_few_shot/nvdinov2_backup_1.py`).

The client is shallowly embedded: JSON documents become the inductive
`JsonVal`; operations that may raise Python exceptions return
`Except String _`; the network is an oracle (`ItemEnv`) supplying the
responses each HTTP call would produce; the thread pool's
completion-order collection is a permutation parameter over item
indices.
-/

namespace NVDINOv2

/-- A JSON-like Python value (dict / list / str / number / bool / None). -/
inductive JsonVal where
  | null : JsonVal
  | bool (b : Bool) : JsonVal
  | num (q : Rat) : JsonVal
  | str (s : String) : JsonVal
  | arr (elems : List JsonVal) : JsonVal
  | obj (fields : List (String × JsonVal)) : JsonVal

/-- Python dict lookup on the field list (keys are unique in a Python dict;
we take the first binding). -/
def lookupField : List (String × JsonVal) → String → Option JsonVal
  | [], _ => none
  | (k, v) :: rest, key => if k = key then some v else lookupField rest key

/-- Python `key in d`. -/
def containsKey (fields : List (String × JsonVal)) (key : String) : Bool :=
  (lookupField fields key).isSome

/-- Format (A) of `_extract_embedding`:
`"metadata" in resp_json and isinstance(resp_json["metadata"], list)`,
then `md0 = resp_json["metadata"][0] if resp_json["metadata"] else None`,
then `isinstance(md0, dict) and "embedding" in md0 → md0["embedding"]`. -/
def tryFormatA (fields : List (String × JsonVal)) : Option JsonVal :=
  match lookupField fields "metadata" with
  | some (.arr md) =>
    match md.head? with
    | some (.obj md0f) => lookupField md0f "embedding"
    | _ => none
  | _ => none

/-- Format (B): `"embedding" in resp_json and isinstance(resp_json["embedding"],
(list, tuple)) → list(resp_json["embedding"])` (a fresh list of the same
elements). -/
def tryFormatB (fields : List (String × JsonVal)) : Option JsonVal :=
  match lookupField fields "embedding" with
  | some (.arr elems) => some (.arr elems)
  | _ => none

/-- One iteration of the format (C) loop for a key `k`:
`k in resp_json and isinstance(resp_json[k], list) and resp_json[k]`,
then `first = resp_json[k][0]`, then
`isinstance(first, dict) and "embedding" in first → first["embedding"]`. -/
def tryFormatC1 (fields : List (String × JsonVal)) (k : String) : Option JsonVal :=
  match lookupField fields k with
  | some (.arr ks) =>
    if ks.isEmpty then none
    else
      match ks.head? with
      | some (.obj ff) => lookupField ff "embedding"
      | _ => none
  | _ => none

/-- `NVDINOv2._extract_embedding`: defensively extract the embedding from a
response document.  Non-dict input returns `None`; otherwise formats (A),
(B), then (C) over the keys `data`, `outputs`, `results` are tried in
order, first match wins; anything else (including error-shaped documents)
returns `None`. -/
def extract_embedding (resp_json : JsonVal) : Option JsonVal :=
  match resp_json with
  | .obj fields =>
    tryFormatA fields <|> tryFormatB fields <|>
      tryFormatC1 fields "data" <|> tryFormatC1 fields "outputs" <|>
      tryFormatC1 fields "results"
  | _ => none

/-- §4.1 step 1 of the spec, in the spec's words: if the document is a
mapping containing key `metadata` whose value is a non-empty ordered
sequence, and the first element is a mapping containing key `embedding`,
return that value. -/
def specFormatA : JsonVal → Option JsonVal
  | .obj fields =>
    match lookupField fields "metadata" with
    | some (.arr (first :: _)) =>
      match first with
      | .obj firstFields => lookupField firstFields "embedding"
      | _ => none
    | _ => none
  | _ => none

/-- §4.1 step 2 of the spec: if the document is a mapping containing key
`embedding` whose value is a sequence, return it as an ordered sequence. -/
def specFormatB : JsonVal → Option JsonVal
  | .obj fields =>
    match lookupField fields "embedding" with
    | some (.arr elems) => some (.arr elems)
    | _ => none
  | _ => none

/-- §4.1 step 3 of the spec for one wrapper key: if present, is a non-empty
sequence, and its first element is a mapping containing `embedding`,
return that value. -/
def specWrapped (k : String) : JsonVal → Option JsonVal
  | .obj fields =>
    match lookupField fields k with
    | some (.arr (first :: _)) =>
      match first with
      | .obj firstFields => lookupField firstFields "embedding"
      | _ => none
    | _ => none
  | _ => none

/-- The ResponseParser contract of spec §4.1, written from the spec's words:
steps 1-3 in fixed priority order (step 3 over the keys `data`, `outputs`,
`results` in that order), first match wins, otherwise "no value". -/
def ResponseParserSpec (doc : JsonVal) : Option JsonVal :=
  specFormatA doc <|> specFormatB doc <|>
    specWrapped "data" doc <|> specWrapped "outputs" doc <|>
    specWrapped "results" doc

/-- Python subscript `j[k]` on a JSON value: raises `KeyError` on a mapping
without the key and `TypeError` on a non-mapping. -/
def jsonGetE : JsonVal → String → Except String JsonVal
  | .obj fields, k =>
    match lookupField fields k with
    | some v => .ok v
    | none => .error ("KeyError: " ++ k)
  | _, k => .error ("TypeError: value is not subscriptable by " ++ k)

/-- Python subscript `xs[i]` on a list: raises `IndexError` out of range. -/
def listGetE (xs : List JsonVal) (i : Nat) : Except String JsonVal :=
  match xs.get? i with
  | some v => .ok v
  | none => .error "IndexError: list index out of range"

/-- Format (A) with every Python subscript modelled as a raisable operation:
used to show `_extract_embedding` can never raise. -/
def tryFormatA_c (resp_json : JsonVal) (fields : List (String × JsonVal)) :
    Except String (Option JsonVal) :=
  if containsKey fields "metadata" then
    match jsonGetE resp_json "metadata" with
    | .error e => .error e
    | .ok mv =>
      match mv with
      | .arr md =>
        match (if md.isEmpty then Except.ok JsonVal.null else listGetE md 0) with
        | .error e => .error e
        | .ok md0 =>
          match md0 with
          | .obj md0f =>
            if containsKey md0f "embedding" then
              match jsonGetE md0 "embedding" with
              | .error e => .error e
              | .ok v => .ok (some v)
            else .ok none
          | _ => .ok none
      | _ => .ok none
  else .ok none

/-- Format (B) with raisable subscripts. -/
def tryFormatB_c (resp_json : JsonVal) (fields : List (String × JsonVal)) :
    Except String (Option JsonVal) :=
  if containsKey fields "embedding" then
    match jsonGetE resp_json "embedding" with
    | .error e => .error e
    | .ok ev =>
      match ev with
      | .arr elems => .ok (some (.arr elems))
      | _ => .ok none
  else .ok none

/-- One format (C) iteration with raisable subscripts. -/
def tryFormatC1_c (resp_json : JsonVal) (fields : List (String × JsonVal))
    (k : String) : Except String (Option JsonVal) :=
  if containsKey fields k then
    match jsonGetE resp_json k with
    | .error e => .error e
    | .ok kv =>
      match kv with
      | .arr ks =>
        if ks.isEmpty then .ok none
        else
          match listGetE ks 0 with
          | .error e => .error e
          | .ok first =>
            match first with
            | .obj ff =>
              if containsKey ff "embedding" then
                match jsonGetE first "embedding" with
                | .error e => .error e
                | .ok v => .ok (some v)
              else .ok none
            | _ => .ok none
      | _ => .ok none
  else .ok none

/-- `_extract_embedding` with every subscript operation modelled as
raisable, mirroring the Python control flow statement by statement. -/
def extract_embedding_c (resp_json : JsonVal) : Except String (Option JsonVal) :=
  match resp_json with
  | .obj fields =>
    match tryFormatA_c (.obj fields) fields with
    | .error e => .error e
    | .ok (some v) => .ok (some v)
    | .ok none =>
      match tryFormatB_c (.obj fields) fields with
      | .error e => .error e
      | .ok (some v) => .ok (some v)
      | .ok none =>
        match tryFormatC1_c (.obj fields) fields "data" with
        | .error e => .error e
        | .ok (some v) => .ok (some v)
        | .ok none =>
          match tryFormatC1_c (.obj fields) fields "outputs" with
          | .error e => .error e
          | .ok (some v) => .ok (some v)
          | .ok none =>
            match tryFormatC1_c (.obj fields) fields "results" with
            | .error e => .error e
            | .ok (some v) => .ok (some v)
            | .ok none => .ok none
  | _ => .ok none

/-- A PIL image; only the color mode is observable by the client code. -/
structure PILImage where
  mode : String
deriving DecidableEq

/-- An element of the input batch: a path string, an in-memory PIL image,
or any other Python value (unsupported). -/
inductive ImageInput where
  | path (s : String) : ImageInput
  | pil (img : PILImage) : ImageInput
  | other (desc : String) : ImageInput
deriving DecidableEq

/-- Client configuration fixed in `__init__`: `request_timeout`,
`max_retries`, `retry_backoff`. -/
structure Config where
  request_timeout : Rat
  max_retries : Nat
  retry_backoff : Rat

/-- The values set in `__init__`: 60 s timeout, 2 retries, 1.0 s backoff. -/
def defaultConfig : Config := { request_timeout := 60, max_retries := 2, retry_backoff := 1 }

/-- Oracle for the network and runtime effects one item's processing
performs: the upload-slot response, `Image.open`, the PUT response, UUID
parsing, and the inference response of each attempt. -/
structure ItemEnv where
  slotResp : Except String JsonVal
  openImage : String → Except String PILImage
  putResp : Except String Unit
  uuidParse : String → Except String String
  inferResp : Nat → Except String JsonVal

/-- An outbound HTTP call together with the timeout it was issued with. -/
inductive NetCall where
  | post (url : String) (timeout : Rat) : NetCall
  | put (url : String) (timeout : Rat) : NetCall
deriving DecidableEq

/-- The NVCF assets endpoint used by `_upload_asset`. -/
def assets_url : String := "https://api.nvcf.nvidia.com/v2/nvcf/assets"

/-- Image normalization in `_upload_asset`: open from path or use the PIL
image, convert to RGB; any other input type raises `TypeError`. -/
def normalizeImage (env : ItemEnv) : ImageInput → Except String PILImage
  | .path s => (env.openImage s).map (fun img => { img with mode := "RGB" })
  | .pil img => .ok { img with mode := "RGB" }
  | .other _ => .error "image_path_or_pil must be a str (path) or PIL.Image.Image"

/-- `uuid.UUID(asset_id)`: only a string can parse, and the oracle decides
whether the string is a well-formed UUID. -/
def parseUUIDVal (env : ItemEnv) : JsonVal → Except String String
  | .str s => env.uuidParse s
  | _ => .error "TypeError: uuid argument is not a string"

/-- `NVDINOv2._upload_asset`: request an upload slot (POST with the
configured timeout), read `uploadUrl` and `assetId` from the response,
normalize the image, PUT the bytes with timeout `max(request_timeout, 300)`,
and parse the asset id as a UUID.  Returns the result together with the
trace of HTTP calls issued. -/
def upload_asset (cfg : Config) (env : ItemEnv) (img : ImageInput) :
    Except String String × List NetCall :=
  let slotCall := NetCall.post assets_url cfg.request_timeout
  match env.slotResp with
  | .error e => (.error e, [slotCall])
  | .ok j =>
    match jsonGetE j "uploadUrl" with
    | .error e => (.error e, [slotCall])
    | .ok urlVal =>
      match jsonGetE j "assetId" with
      | .error e => (.error e, [slotCall])
      | .ok assetIdVal =>
        match normalizeImage env img with
        | .error e => (.error e, [slotCall])
        | .ok _image =>
          match urlVal with
          | .str asset_url =>
            let putCall := NetCall.put asset_url (max cfg.request_timeout 300)
            match env.putResp with
            | .error e => (.error e, [slotCall, putCall])
            | .ok _ =>
              match parseUUIDVal env assetIdVal with
              | .error e => (.error e, [slotCall, putCall])
              | .ok uid => (.ok uid, [slotCall, putCall])
          | _ => (.error "requests.put: url must be a string", [slotCall])

/-- The retry loop of `_post_infer`, starting at attempt number `attempt`
with `remaining` further attempts allowed.  Returns the final outcome, the
number of attempts actually made, and the list of sleeps performed between
consecutive attempts (`retry_backoff * 2 ^ attempt` before each retry). -/
def post_infer_aux (oracle : Nat → Except String JsonVal) (backoff : Rat) :
    Nat → Nat → Except String JsonVal × Nat × List Rat
  | attempt, remaining =>
    match oracle attempt with
    | .ok j => (.ok j, 1, [])
    | .error e =>
      match remaining with
      | 0 => (.error e, 1, [])
      | r + 1 =>
        let rest := post_infer_aux oracle backoff (attempt + 1) r
        (rest.1, rest.2.1 + 1, backoff * 2 ^ attempt :: rest.2.2)

/-- `NVDINOv2._post_infer`: attempt the inference POST up to
`max_retries + 1` times, sleeping `retry_backoff * 2 ^ attempt` between
consecutive attempts, re-raising the most recent error when attempts are
exhausted. -/
def post_infer (cfg : Config) (oracle : Nat → Except String JsonVal) :
    Except String JsonVal × Nat × List Rat :=
  post_infer_aux oracle cfg.retry_backoff 0 cfg.max_retries

/-- `NVDINOv2._embed_once`: upload the image, then run inference on the
returned asset id. -/
def embed_once (cfg : Config) (env : ItemEnv) (img : ImageInput) :
    Except String JsonVal :=
  match (upload_asset cfg env img).1 with
  | .error e => .error e
  | .ok _asset_id => (post_infer cfg env.inferResp).1

/-- The argument accepted by `__call__`: a single path string, a single PIL
image, a single non-iterable value of any other type, or a collection. -/
inductive CallArg where
  | singlePath (s : String) : CallArg
  | singlePil (img : PILImage) : CallArg
  | singleOther (desc : String) : CallArg
  | coll (inputs : List ImageInput) : CallArg

/-- Input normalization at the top of `__call__`: a single `str` or
`PIL.Image.Image` is wrapped into a one-element list; a collection is
listed as-is; `list(x)` on a single non-iterable value of any other type
raises `TypeError` to the caller. -/
def normalizeArg : CallArg → Except String (List ImageInput)
  | .singlePath s => .ok [.path s]
  | .singlePil img => .ok [.pil img]
  | .singleOther desc => .error ("TypeError: " ++ desc ++ " object is not iterable")
  | .coll xs => .ok xs

/-- The error-marker document `{"error": str(e)}` recorded for a failed
item. -/
def errMarker (e : String) : JsonVal := .obj [("error", .str e)]

/-- The collection step of `__call__`: a successful future contributes its
document, a failed one its error marker. -/
def markOutcome : Except String JsonVal → JsonVal
  | .ok j => j
  | .error e => errMarker e

/-- The outcome of the worker task for item index `i` of the batch. -/
def itemOutcome (cfg : Config) (envs : Nat → ItemEnv) (inputs : List ImageInput)
    (i : Nat) : Except String JsonVal :=
  embed_once cfg (envs i) (inputs.getD i (.other "missing"))

/-- The `responses` list of `__call__`: outcomes gathered in completion
order, given by the index permutation `perm` (`as_completed` yields futures
in completion order, not submission order). -/
def collectResponses (cfg : Config) (envs : Nat → ItemEnv)
    (inputs : List ImageInput) (perm : List Nat) : List JsonVal :=
  perm.map (fun i => markOutcome (itemOutcome cfg envs inputs i))

/-- The embedding-extraction loop of `__call__`: per response either the
extracted embedding or an explicit `None` placeholder, together with the
`failed` counter. -/
def extractAll : List JsonVal → List (Option JsonVal) × Nat
  | [] => ([], 0)
  | r :: rs =>
    let rest := extractAll rs
    match extract_embedding r with
    | none => (none :: rest.1, rest.2 + 1)
    | some emb => (some emb :: rest.1, rest.2)

/-- What `__call__` returns: the raw documents (`return_meta=True`), or the
embedding list with the failure count and whether the warning was
printed. -/
inductive BatchOutput where
  | raw (docs : List JsonVal) : BatchOutput
  | emb (vecs : List (Option JsonVal)) (failed : Nat) (warned : Bool) : BatchOutput

/-- `NVDINOv2.__call__`: normalize the argument, gather one response per
item in completion order (failures becoming error markers), and return
either the raw documents or the extracted embeddings with `None`
placeholders and a warning when any extraction failed. -/
def call (cfg : Config) (envs : Nat → ItemEnv) (arg : CallArg)
    (perm : List Nat) (return_meta : Bool) : Except String BatchOutput :=
  match normalizeArg arg with
  | .error e => .error e
  | .ok inputs =>
    let responses := collectResponses cfg envs inputs perm
    if return_meta then .ok (.raw responses)
    else
      let p := extractAll responses
      .ok (.emb p.1 p.2 (p.2 != 0))

lemma tryFormatA_eq_spec (fields : List (String × JsonVal)) :
    tryFormatA fields = specFormatA (.obj fields) := by
  simp only [tryFormatA, specFormatA]
  cases h : lookupField fields "metadata" with
  | none => rfl
  | some v =>
    cases v with
    | arr md =>
      cases md with
      | nil => rfl
      | cons a as => cases a <;> rfl
    | null => rfl
    | bool b => rfl
    | num q => rfl
    | str s => rfl
    | obj fs => rfl

lemma tryFormatB_eq_spec (fields : List (String × JsonVal)) :
    tryFormatB fields = specFormatB (.obj fields) := by
  simp only [tryFormatB, specFormatB]

lemma tryFormatC1_eq_spec (fields : List (String × JsonVal)) (k : String) :
    tryFormatC1 fields k = specWrapped k (.obj fields) := by
  simp only [tryFormatC1, specWrapped]
  cases h : lookupField fields k with
  | none => rfl
  | some v =>
    cases v with
    | arr ks =>
      cases ks with
      | nil => rfl
      | cons a as => cases a <;> rfl
    | null => rfl
    | bool b => rfl
    | num q => rfl
    | str s => rfl
    | obj fs => rfl

/-- Claim C1: for every JSON document matching one of the formats (A)-(C)
of the parser contract, `_extract_embedding` returns exactly the embedding
value at the documented location, trying the formats in the fixed priority
order (A), (B), then (C) over `data`/`outputs`/`results`, first match
wins; for every document of any other shape (including error-shaped
documents and the empty mapping), it returns `None`.  Stated as: the code's
extraction agrees with the parser contract of spec §4.1 on every document,
and the two listed non-matching shapes yield `None`. -/
theorem C1_parser_matches_contract :
    (∀ doc : JsonVal, extract_embedding doc = ResponseParserSpec doc) ∧
    extract_embedding (.obj [("error", .str "x")]) = none ∧
    extract_embedding (.obj []) = none := by
  refine ⟨?_, rfl, rfl⟩
  intro doc
  cases doc with
  | obj fields =>
    show (tryFormatA fields <|> tryFormatB fields <|>
        tryFormatC1 fields "data" <|> tryFormatC1 fields "outputs" <|>
        tryFormatC1 fields "results") = _
    rw [tryFormatA_eq_spec, tryFormatB_eq_spec, tryFormatC1_eq_spec,
      tryFormatC1_eq_spec, tryFormatC1_eq_spec]
    rfl
  | null => rfl
  | bool b => rfl
  | num q => rfl
  | str s => rfl
  | arr es => rfl

/-- Claim C9: in formats (A) and (C), `_extract_embedding` returns the
value found under the `embedding` key verbatim with no validation that it
is a sequence (e.g. a bare number is returned as-is); only format (B)
checks that the value is a sequence, so only format (B) guarantees the
result is a list. -/
theorem C9_no_validation_in_A_and_C :
    extract_embedding (.obj [("metadata", .arr [.obj [("embedding", .num 5)]])])
      = some (.num 5) ∧
    extract_embedding (.obj [("data", .arr [.obj [("embedding", .num 7)]])])
      = some (.num 7) ∧
    (∀ (fields : List (String × JsonVal)) (v : JsonVal),
      tryFormatB fields = some v → ∃ es, v = .arr es) := by
  refine ⟨rfl, rfl, ?_⟩
  intro fields v h
  unfold tryFormatB at h
  cases hl : lookupField fields "embedding" with
  | none => rw [hl] at h; simp at h
  | some w =>
    rw [hl] at h
    cases w with
    | arr es => exact ⟨es, (Option.some.inj h).symm⟩
    | null => simp at h
    | bool b => simp at h
    | num q => simp at h
    | str s => simp at h
    | obj fs => simp at h

/-- Witness for C9: applying the format (B) guarantee at a concrete
input. -/
theorem C9_witness : ∃ es, JsonVal.arr [.num 1] = .arr es :=
  C9_no_validation_in_A_and_C.2.2 [("embedding", .arr [.num 1])] (.arr [.num 1]) rfl

lemma tryFormatA_c_ok (fields : List (String × JsonVal)) :
    tryFormatA_c (.obj fields) fields = .ok (tryFormatA fields) := by
  cases h : lookupField fields "metadata" with
  | none => simp [tryFormatA_c, tryFormatA, containsKey, jsonGetE, h]
  | some mv =>
    cases mv with
    | arr md =>
      cases md with
      | nil => simp [tryFormatA_c, tryFormatA, containsKey, jsonGetE, h]
      | cons a as =>
        cases a with
        | obj md0f =>
          cases h2 : lookupField md0f "embedding" with
          | none =>
            simp [tryFormatA_c, tryFormatA, containsKey, jsonGetE, listGetE, h, h2]
          | some v =>
            simp [tryFormatA_c, tryFormatA, containsKey, jsonGetE, listGetE, h, h2]
        | null => simp [tryFormatA_c, tryFormatA, containsKey, jsonGetE, listGetE, h]
        | bool b => simp [tryFormatA_c, tryFormatA, containsKey, jsonGetE, listGetE, h]
        | num q => simp [tryFormatA_c, tryFormatA, containsKey, jsonGetE, listGetE, h]
        | str s => simp [tryFormatA_c, tryFormatA, containsKey, jsonGetE, listGetE, h]
        | arr es => simp [tryFormatA_c, tryFormatA, containsKey, jsonGetE, listGetE, h]
    | null => simp [tryFormatA_c, tryFormatA, containsKey, jsonGetE, h]
    | bool b => simp [tryFormatA_c, tryFormatA, containsKey, jsonGetE, h]
    | num q => simp [tryFormatA_c, tryFormatA, containsKey, jsonGetE, h]
    | str s => simp [tryFormatA_c, tryFormatA, containsKey, jsonGetE, h]
    | obj fs => simp [tryFormatA_c, tryFormatA, containsKey, jsonGetE, h]

lemma tryFormatB_c_ok (fields : List (String × JsonVal)) :
    tryFormatB_c (.obj fields) fields = .ok (tryFormatB fields) := by
  cases h : lookupField fields "embedding" with
  | none => simp [tryFormatB_c, tryFormatB, containsKey, jsonGetE, h]
  | some v => cases v <;> simp [tryFormatB_c, tryFormatB, containsKey, jsonGetE, h]

lemma tryFormatC1_c_ok (fields : List (String × JsonVal)) (k : String) :
    tryFormatC1_c (.obj fields) fields k = .ok (tryFormatC1 fields k) := by
  cases h : lookupField fields k with
  | none => simp [tryFormatC1_c, tryFormatC1, containsKey, jsonGetE, h]
  | some v =>
    cases v with
    | arr ks =>
      cases ks with
      | nil => simp [tryFormatC1_c, tryFormatC1, containsKey, jsonGetE, h]
      | cons a as =>
        cases a with
        | obj ff =>
          cases h2 : lookupField ff "embedding" with
          | none =>
            simp [tryFormatC1_c, tryFormatC1, containsKey, jsonGetE, listGetE, h, h2]
          | some v =>
            simp [tryFormatC1_c, tryFormatC1, containsKey, jsonGetE, listGetE, h, h2]
        | null => simp [tryFormatC1_c, tryFormatC1, containsKey, jsonGetE, listGetE, h]
        | bool b => simp [tryFormatC1_c, tryFormatC1, containsKey, jsonGetE, listGetE, h]
        | num q => simp [tryFormatC1_c, tryFormatC1, containsKey, jsonGetE, listGetE, h]
        | str s => simp [tryFormatC1_c, tryFormatC1, containsKey, jsonGetE, listGetE, h]
        | arr es => simp [tryFormatC1_c, tryFormatC1, containsKey, jsonGetE, listGetE, h]
    | null => simp [tryFormatC1_c, tryFormatC1, containsKey, jsonGetE, h]
    | bool b => simp [tryFormatC1_c, tryFormatC1, containsKey, jsonGetE, h]
    | num q => simp [tryFormatC1_c, tryFormatC1, containsKey, jsonGetE, h]
    | str s => simp [tryFormatC1_c, tryFormatC1, containsKey, jsonGetE, h]
    | obj fs => simp [tryFormatC1_c, tryFormatC1, containsKey, jsonGetE, h]

/-- Claim C5: `_extract_embedding` is total on arbitrary JSON-like input
and never raises: with every Python subscript modelled as a raisable
operation, the extraction always completes normally (`Except.ok`) and
yields exactly the embedding-or-`None` result of the pure extraction. -/
theorem C5_extract_never_raises :
    ∀ resp_json : JsonVal,
      extract_embedding_c resp_json = .ok (extract_embedding resp_json) := by
  intro j
  cases j with
  | obj fields =>
    simp only [extract_embedding_c, extract_embedding,
      tryFormatA_c_ok, tryFormatB_c_ok, tryFormatC1_c_ok]
    cases tryFormatA fields with
    | some v => rfl
    | none =>
      cases tryFormatB fields with
      | some v => rfl
      | none =>
        cases tryFormatC1 fields "data" with
        | some v => rfl
        | none =>
          cases tryFormatC1 fields "outputs" with
          | some v => rfl
          | none => cases tryFormatC1 fields "results" <;> rfl
  | null => rfl
  | bool b => rfl
  | num q => rfl
  | str s => rfl
  | arr es => rfl

set_option maxRecDepth 4000 in
lemma post_infer_aux_all_fail (oracle : Nat → Except String JsonVal)
    (errs : Nat → String) (b : Rat)
    (hfail : ∀ a, oracle a = .error (errs a)) :
    ∀ (remaining attempt : Nat),
      post_infer_aux oracle b attempt remaining =
        (.error (errs (attempt + remaining)), remaining + 1,
          (List.range remaining).map (fun i => b * 2 ^ (attempt + i))) := by
  intro remaining
  induction remaining with
  | zero =>
    intro attempt
    rw [post_infer_aux, hfail attempt]
    simp
  | succ r ih =>
    intro attempt
    rw [post_infer_aux, hfail attempt]
    simp only [ih (attempt + 1)]
    refine congrArg₂ Prod.mk ?_ (congrArg₂ Prod.mk rfl ?_)
    · rw [Nat.add_assoc, Nat.add_comm 1 r]
    · rw [List.range_succ_eq_map, List.map_cons, List.map_map]
      refine congrArg₂ List.cons (by norm_num) ?_
      apply List.map_congr_left
      intro i _
      have hx : attempt + 1 + i = attempt + Nat.succ i := by omega
      rw [hx]
      rfl

/-- Claim C3: with `max_retries = 2`, an inference call whose every attempt
fails is attempted exactly 3 times in total; between consecutive attempts
the invoker sleeps `retry_backoff * 2 ^ attempt` seconds, so with a
nonnegative backoff base the inter-attempt delays are non-decreasing; after
the final attempt fails, the most recent error (that of attempt 2) is
propagated as the invocation's failure and no value is returned. -/
theorem C3_retry_exhaustion (cfg : Config) (oracle : Nat → Except String JsonVal)
    (errs : Nat → String)
    (hm : cfg.max_retries = 2) (hb : 0 ≤ cfg.retry_backoff)
    (hfail : ∀ a, oracle a = .error (errs a)) :
    post_infer cfg oracle =
      (.error (errs 2), 3,
        [cfg.retry_backoff * 2 ^ 0, cfg.retry_backoff * 2 ^ 1]) ∧
    cfg.retry_backoff * 2 ^ 0 ≤ cfg.retry_backoff * 2 ^ 1 := by
  constructor
  · rw [post_infer, hm, post_infer_aux_all_fail oracle errs _ hfail 2 0]
    norm_num [List.range_succ]
  · have h2 : (2:Rat) ^ 0 ≤ 2 ^ 1 := by norm_num
    exact mul_le_mul_of_nonneg_left h2 hb

/-- An inference oracle whose every attempt fails. -/
def failOracle : Nat → Except String JsonVal := fun _ => .error "boom"

/-- Witness for C3: the default configuration (`max_retries = 2`,
`retry_backoff = 1`) with an always-failing oracle. -/
theorem C3_witness :
    post_infer defaultConfig failOracle =
      (.error "boom", 3,
        [defaultConfig.retry_backoff * 2 ^ 0, defaultConfig.retry_backoff * 2 ^ 1]) ∧
    defaultConfig.retry_backoff * 2 ^ 0 ≤ defaultConfig.retry_backoff * 2 ^ 1 :=
  C3_retry_exhaustion defaultConfig failOracle (fun _ => "boom") rfl
    (by norm_num [defaultConfig]) (fun _ => rfl)

lemma extractAll_fst (rs : List JsonVal) :
    (extractAll rs).1 = rs.map extract_embedding := by
  induction rs with
  | nil => rfl
  | cons r rs ih =>
    simp only [extractAll, List.map_cons]
    cases h : extract_embedding r <;> simp [h, ih]

lemma extractAll_snd (rs : List JsonVal) :
    (extractAll rs).2 = rs.countP (fun r => (extract_embedding r).isNone) := by
  induction rs with
  | nil => rfl
  | cons r rs ih =>
    simp only [extractAll]
    cases h : extract_embedding r <;>
      simp [h, ih, List.countP_cons]

lemma extract_errMarker (e : String) : extract_embedding (errMarker e) = none := rfl

lemma call_raw_eq (cfg : Config) (envs : Nat → ItemEnv) (arg : CallArg)
    (perm : List Nat) (inputs : List ImageInput)
    (hn : normalizeArg arg = .ok inputs) :
    call cfg envs arg perm true =
      .ok (.raw (collectResponses cfg envs inputs perm)) := by
  simp [call, hn]

lemma call_emb_eq (cfg : Config) (envs : Nat → ItemEnv) (arg : CallArg)
    (perm : List Nat) (inputs : List ImageInput)
    (hn : normalizeArg arg = .ok inputs) :
    call cfg envs arg perm false =
      .ok (.emb (extractAll (collectResponses cfg envs inputs perm)).1
        (extractAll (collectResponses cfg envs inputs perm)).2
        ((extractAll (collectResponses cfg envs inputs perm)).2 != 0)) := by
  simp [call, hn]

lemma collectResponses_length (cfg : Config) (envs : Nat → ItemEnv)
    (inputs : List ImageInput) (perm : List Nat) :
    (collectResponses cfg envs inputs perm).length = perm.length := by
  simp [collectResponses]

lemma collectResponses_get? (cfg : Config) (envs : Nat → ItemEnv)
    (inputs : List ImageInput) (perm : List Nat) (k i : Nat)
    (hk : perm.get? k = some i) :
    (collectResponses cfg envs inputs perm).get? k =
      some (markOutcome (itemOutcome cfg envs inputs i)) := by
  rw [collectResponses, List.get?_map, hk]
  rfl

/-- Claim C2: for every batch of N input items passed to `__call__`, the
returned sequence has length exactly N, in raw mode and in embedding mode
alike, regardless of how many items fail. -/
theorem C2_output_length_eq_input_length (cfg : Config) (envs : Nat → ItemEnv)
    (arg : CallArg) (perm : List Nat) (inputs : List ImageInput)
    (hn : normalizeArg arg = .ok inputs)
    (hp : List.Perm perm (List.range inputs.length)) :
    ∃ docs vecs failed warned,
      call cfg envs arg perm true = .ok (.raw docs) ∧
      docs.length = inputs.length ∧
      call cfg envs arg perm false = .ok (.emb vecs failed warned) ∧
      vecs.length = inputs.length := by
  have hlen : (collectResponses cfg envs inputs perm).length = inputs.length := by
    rw [collectResponses_length, hp.length_eq, List.length_range]
  refine ⟨collectResponses cfg envs inputs perm,
    (extractAll (collectResponses cfg envs inputs perm)).1,
    (extractAll (collectResponses cfg envs inputs perm)).2,
    (extractAll (collectResponses cfg envs inputs perm)).2 != 0,
    call_raw_eq cfg envs arg perm inputs hn, hlen,
    call_emb_eq cfg envs arg perm inputs hn, ?_⟩
  rw [extractAll_fst, List.length_map, hlen]

/-- An oracle under which every network call succeeds: the upload slot
returns a URL and a well-formed asset id, the PUT succeeds, and inference
returns a format (A) document on the first attempt. -/
def okEnv : ItemEnv where
  slotResp := .ok (.obj [("uploadUrl", .str "https://upload.example"),
    ("assetId", .str "11111111-1111-1111-1111-111111111111")])
  openImage := fun _ => .ok { mode := "RGB" }
  putResp := .ok ()
  uuidParse := fun s => .ok s
  inferResp := fun _ =>
    .ok (.obj [("metadata", .arr [.obj [("embedding", .arr [.num 1, .num 2])]])])

/-- An oracle under which every network call fails. -/
def downEnv : ItemEnv where
  slotResp := .error "boom"
  openImage := fun _ => .error "boom"
  putResp := .error "boom"
  uuidParse := fun _ => .error "boom"
  inferResp := fun _ => .error "boom"

/-- Witness for C2: a one-element batch under the all-success oracle. -/
theorem C2_witness :
    ∃ docs vecs failed warned,
      call defaultConfig (fun _ => okEnv) (.coll [.path "a"]) [0] true = .ok (.raw docs) ∧
      docs.length = [ImageInput.path "a"].length ∧
      call defaultConfig (fun _ => okEnv) (.coll [.path "a"]) [0] false =
        .ok (.emb vecs failed warned) ∧
      vecs.length = [ImageInput.path "a"].length :=
  C2_output_length_eq_input_length defaultConfig (fun _ => okEnv) (.coll [.path "a"])
    [0] [.path "a"] rfl (by decide)

/-- Claim C7: passing a single non-collection input (one path string or one
in-memory image) to `__call__` is accepted, normalized to a one-element
collection, and produces exactly the same output as passing the
corresponding one-element collection, for every choice of the other
parameters. -/
theorem C7_single_input_equals_singleton (cfg : Config) (envs : Nat → ItemEnv)
    (perm : List Nat) (return_meta : Bool) :
    (∀ s : String, call cfg envs (.singlePath s) perm return_meta =
      call cfg envs (.coll [.path s]) perm return_meta) ∧
    (∀ img : PILImage, call cfg envs (.singlePil img) perm return_meta =
      call cfg envs (.coll [.pil img]) perm return_meta) :=
  ⟨fun _ => rfl, fun _ => rfl⟩

/-- Claim C4: per-item failures during a batch call are isolated — every
exception raised while processing one item is captured as the error-marker
document `{"error": <message>}` at that item's slot and never aborts the
whole batch — and the only condition that makes `__call__` itself raise to
the caller is an unsupported input type passed as the single non-collection
argument (neither a path string nor an in-memory image). -/
theorem C4_per_item_failures_isolated (cfg : Config) (envs : Nat → ItemEnv) :
    (∀ (xs : List ImageInput) (perm : List Nat) (k i : Nat) (e : String),
      perm.get? k = some i →
      itemOutcome cfg envs xs i = .error e →
      ∃ docs, call cfg envs (.coll xs) perm true = .ok (.raw docs) ∧
        docs.get? k = some (errMarker e) ∧ docs.length = perm.length) ∧
    (∀ (arg : CallArg) (perm : List Nat) (return_meta : Bool),
      (∃ e, call cfg envs arg perm return_meta = .error e) ↔
      ∃ d, arg = .singleOther d) := by
  constructor
  · intro xs perm k i e hk houtcome
    refine ⟨collectResponses cfg envs xs perm,
      call_raw_eq cfg envs (.coll xs) perm xs rfl, ?_, collectResponses_length _ _ _ _⟩
    rw [collectResponses_get? cfg envs xs perm k i hk, houtcome]
    rfl
  · intro arg perm return_meta
    constructor
    · rintro ⟨e, he⟩
      cases arg with
      | singleOther d => exact ⟨d, rfl⟩
      | singlePath s => cases return_meta <;> simp [call, normalizeArg] at he
      | singlePil img => cases return_meta <;> simp [call, normalizeArg] at he
      | coll xs => cases return_meta <;> simp [call, normalizeArg] at he
    · rintro ⟨d, rfl⟩
      refine ⟨"TypeError: " ++ d ++ " object is not iterable", ?_⟩
      cases return_meta <;> simp [call, normalizeArg]

/-- Witness for C4: a batch whose single item is an unsupported input type;
the `TypeError` raised inside the worker is captured as an error marker and
the batch completes. -/
theorem C4_witness :
    ∃ docs,
      call defaultConfig (fun _ => okEnv) (.coll [.other "x"]) [0] true = .ok (.raw docs) ∧
      docs.get? 0 = some
        (errMarker "image_path_or_pil must be a str (path) or PIL.Image.Image") ∧
      docs.length = [0].length :=
  (C4_per_item_failures_isolated defaultConfig (fun _ => okEnv)).1 [.other "x"] [0] 0 0
    "image_path_or_pil must be a str (path) or PIL.Image.Image" rfl rfl

/-- Claim C6: for a batch item at completion slot `k` holding item index
`i`: if its upload or inference permanently failed with error `e`, its slot
is the error-marker document in raw mode and the `None` placeholder in
embedding mode; if it succeeded and its raw response is parseable, its slot
in embedding mode is a non-`None` embedding entry. -/
theorem C6_failed_marker_succeeded_embedding (cfg : Config) (envs : Nat → ItemEnv)
    (xs : List ImageInput) (perm : List Nat) (k i : Nat)
    (hk : perm.get? k = some i) :
    (∀ e, itemOutcome cfg envs xs i = .error e →
      ∃ docs vecs failed warned,
        call cfg envs (.coll xs) perm true = .ok (.raw docs) ∧
        docs.get? k = some (errMarker e) ∧
        call cfg envs (.coll xs) perm false = .ok (.emb vecs failed warned) ∧
        vecs.get? k = some none) ∧
    (∀ j, itemOutcome cfg envs xs i = .ok j → (extract_embedding j).isSome →
      ∃ vecs failed warned v,
        call cfg envs (.coll xs) perm false = .ok (.emb vecs failed warned) ∧
        vecs.get? k = some (some v)) := by
  have hvecs : (extractAll (collectResponses cfg envs xs perm)).1.get? k =
      some (extract_embedding (markOutcome (itemOutcome cfg envs xs i))) := by
    rw [extractAll_fst, List.get?_map, collectResponses_get? cfg envs xs perm k i hk]
    rfl
  constructor
  · intro e houtcome
    refine ⟨collectResponses cfg envs xs perm, _, _, _,
      call_raw_eq cfg envs (.coll xs) perm xs rfl, ?_,
      call_emb_eq cfg envs (.coll xs) perm xs rfl, ?_⟩
    · rw [collectResponses_get? cfg envs xs perm k i hk, houtcome]
      rfl
    · rw [hvecs, houtcome]
      rfl
  · intro j houtcome hsome
    obtain ⟨v, hv⟩ := Option.isSome_iff_exists.mp hsome
    refine ⟨_, _, _, v, call_emb_eq cfg envs (.coll xs) perm xs rfl, ?_⟩
    rw [hvecs, houtcome]
    show some (extract_embedding j) = some (some v)
    rw [hv]

/-- Witness for C6: the all-failing oracle, one item, failure branch. -/
theorem C6_witness :
    ∃ docs vecs failed warned,
      call defaultConfig (fun _ => downEnv) (.coll [.path "a"]) [0] true = .ok (.raw docs) ∧
      docs.get? 0 = some (errMarker "boom") ∧
      call defaultConfig (fun _ => downEnv) (.coll [.path "a"]) [0] false =
        .ok (.emb vecs failed warned) ∧
      vecs.get? 0 = some none :=
  (C6_failed_marker_succeeded_embedding defaultConfig (fun _ => downEnv)
    [.path "a"] [0] 0 0 rfl).1 "boom" rfl

/-- Claim C10: in embedding mode the output contains `None` at exactly the
positions whose collected document is not parseable by the extraction
(error markers included), the tracked failure count equals the number of
`None` entries in the returned list, and the warning is emitted if and only
if that count is positive. -/
theorem C10_none_positions_count_warning (cfg : Config) (envs : Nat → ItemEnv)
    (arg : CallArg) (perm : List Nat) (inputs : List ImageInput)
    (vecs : List (Option JsonVal)) (failed : Nat) (warned : Bool)
    (hn : normalizeArg arg = .ok inputs)
    (hc : call cfg envs arg perm false = .ok (.emb vecs failed warned)) :
    (∀ k, vecs.get? k = some none ↔
      ∃ r, (collectResponses cfg envs inputs perm).get? k = some r ∧
        extract_embedding r = none) ∧
    failed = vecs.countP (fun v => v.isNone) ∧
    (warned = true ↔ 0 < failed) ∧
    (∀ e, extract_embedding (errMarker e) = none) := by
  rw [call_emb_eq cfg envs arg perm inputs hn] at hc
  simp only [Except.ok.injEq, BatchOutput.emb.injEq] at hc
  obtain ⟨hv, hf, hw⟩ := hc
  subst hv
  subst hf
  subst hw
  refine ⟨?_, ?_, ?_, extract_errMarker⟩
  · intro k
    rw [extractAll_fst, List.get?_map]
    cases h : (collectResponses cfg envs inputs perm).get? k <;> simp [h]
  · rw [extractAll_snd, extractAll_fst, List.countP_map]
    rfl
  · simp [bne_iff_ne, Nat.pos_iff_ne_zero]

/-- Witness for C10: a one-element batch under the all-failing oracle; the
single slot is `None`, the failure count is 1, and the warning fires. -/
theorem C10_witness :
    (∀ k, ([none] : List (Option JsonVal)).get? k = some none ↔
      ∃ r, (collectResponses defaultConfig (fun _ => downEnv)
          [.path "a"] [0]).get? k = some r ∧
        extract_embedding r = none) ∧
    1 = ([none] : List (Option JsonVal)).countP (fun v => v.isNone) ∧
    (true = true ↔ 0 < 1) ∧
    (∀ e, extract_embedding (errMarker e) = none) :=
  C10_none_positions_count_warning defaultConfig (fun _ => downEnv)
    (.coll [.path "a"]) [0] [.path "a"] [none] 1 true rfl rfl

lemma upload_asset_trace (cfg : Config) (env : ItemEnv) (img : ImageInput) :
    (upload_asset cfg env img).2 = [NetCall.post assets_url cfg.request_timeout] ∨
    ∃ u, (upload_asset cfg env img).2 =
      [NetCall.post assets_url cfg.request_timeout,
       NetCall.put u (max cfg.request_timeout 300)] := by
  cases h1 : env.slotResp with
  | error e => simp [upload_asset, h1]
  | ok j =>
    cases h2 : jsonGetE j "uploadUrl" with
    | error e => simp [upload_asset, h1, h2]
    | ok urlVal =>
      cases h3 : jsonGetE j "assetId" with
      | error e => simp [upload_asset, h1, h2, h3]
      | ok assetIdVal =>
        cases h4 : normalizeImage env img with
        | error e => simp [upload_asset, h1, h2, h3, h4]
        | ok img2 =>
          cases urlVal with
          | str u =>
            cases h5 : env.putResp with
            | error e =>
              right
              exact ⟨u, by simp [upload_asset, h1, h2, h3, h4, h5]⟩
            | ok unit2 =>
              cases h6 : parseUUIDVal env assetIdVal with
              | error e =>
                right
                exact ⟨u, by simp [upload_asset, h1, h2, h3, h4, h5, h6]⟩
              | ok uid =>
                right
                exact ⟨u, by simp [upload_asset, h1, h2, h3, h4, h5, h6]⟩
          | null => simp [upload_asset, h1, h2, h3, h4]
          | bool b => simp [upload_asset, h1, h2, h3, h4]
          | num q => simp [upload_asset, h1, h2, h3, h4]
          | arr es => simp [upload_asset, h1, h2, h3, h4]
          | obj fs => simp [upload_asset, h1, h2, h3, h4]

/-- Claim C8: the byte-transfer PUT always uses a timeout equal to
`max(request_timeout, 300)` — at least 300 s and never less than the
control-call timeout — while the upload-slot POST uses the ordinary
configured timeout, whose default is 60 s. -/
theorem C8_put_timeout_floor (cfg : Config) (env : ItemEnv) (img : ImageInput) :
    (∀ url t, NetCall.put url t ∈ (upload_asset cfg env img).2 →
      t = max cfg.request_timeout 300 ∧ 300 ≤ t ∧ cfg.request_timeout ≤ t) ∧
    (∀ url t, NetCall.post url t ∈ (upload_asset cfg env img).2 →
      t = cfg.request_timeout) ∧
    defaultConfig.request_timeout = 60 := by
  refine ⟨?_, ?_, rfl⟩
  · intro url t hm
    obtain h | ⟨u, h⟩ := upload_asset_trace cfg env img
    · rw [h] at hm
      simp at hm
    · rw [h] at hm
      simp at hm
      obtain ⟨-, ht⟩ := hm
      subst ht
      exact ⟨rfl, le_max_right _ _, le_max_left _ _⟩
  · intro url t hm
    obtain h | ⟨u, h⟩ := upload_asset_trace cfg env img
    · rw [h] at hm
      simp at hm
      exact hm.2
    · rw [h] at hm
      simp at hm
      exact hm.2

/-- Witness for C8: under the all-success oracle the byte-transfer PUT is
actually issued, with timeout `max(60, 300)`. -/
theorem C8_witness :
    max defaultConfig.request_timeout 300 = max defaultConfig.request_timeout 300 ∧
    300 ≤ max defaultConfig.request_timeout 300 ∧
    defaultConfig.request_timeout ≤ max defaultConfig.request_timeout 300 :=
  (C8_put_timeout_floor defaultConfig okEnv (.path "a")).1 "https://upload.example"
    (max defaultConfig.request_timeout 300) (by decide)

end NVDINOv2
